import Mathlib

/-!
Shallow embedding of the analysis-session and recurring-pattern persistence
engine of the codex-d repository
(mcp-servers/mcp_codex_psychology/mcp_server/database.py and server.py).

The SQLite tables are modelled as Lean lists of row structures inside a `DB`
state record; each SQL statement of the source becomes the corresponding
list operation (INSERT = append with the per-table autoincrement counter,
UPDATE ... WHERE = map over rows guarded by the WHERE predicate,
SELECT ... fetchone = List.find?, SELECT ... fetchall = List.filter with an
explicit sort for ORDER BY). Every place the source calls datetime.now()
the embedded operation takes an explicit `now : String` argument (the
isoformat timestamp). Python float arguments that are stored and echoed
back, never computed with (the severity score), are modelled as `Rat`.
-/

namespace CodexPsych

/-- Boolean test that the list `a` is a leading segment of `b`,
used to build the substring test below. -/
def leadsList : List Char → List Char → Bool
  | [], _ => true
  | _ :: _, [] => false
  | a :: as, b :: bs => a == b && leadsList as bs

/-- Boolean contiguous-substring test on character lists: embedding of the
Python `needle in haystack` string operator. -/
def containsList (needle : List Char) : List Char → Bool
  | [] => needle.isEmpty
  | c :: rest => leadsList needle (c :: rest) || containsList needle rest

/-- Embedding of the Python `needle in hay` test on strings. -/
def strContains (hay needle : String) : Bool :=
  containsList needle.toList hay.toList

/-- Character-list splitter on a single separator character, the list-level
core of Python str.split with a one-character separator. -/
def splitOnCharList (c : Char) : List Char → List (List Char)
  | [] => [[]]
  | a :: rest =>
      let r := splitOnCharList c rest
      if a == c then [] :: r
      else
        match r with
        | [] => [[a]]
        | h :: t => (a :: h) :: t

/-- Embedding of Python s.split(sep) for a one-character separator. -/
def splitOnChar (c : Char) (s : String) : List String :=
  (splitOnCharList c s.toList).map String.mk

/-- Embedding of Python s.lower() (the keyword sets are ASCII). -/
def strLower (s : String) : String :=
  String.mk (s.toList.map Char.toLower)

/-- Embedding of the Python slice s[:n]. -/
def strTake (s : String) (n : Nat) : String :=
  String.mk (s.toList.take n)

/-- First line of a message: embedding of Python `msg.split(chr(10))[0]`. -/
def firstLine (msg : String) : String :=
  (splitOnChar '\n' msg).headI

/-- Last path component: embedding of Python `Path(p).name` for the
ordinary absolute paths the server passes in. -/
def pathName (p : String) : String :=
  ((((splitOnChar '/' p)).filter (fun s => s ≠ "")).getLast?).getD ""

/-- Insertion step for the descending sort used to embed SQL ORDER BY;
`before x y = true` means `x` may precede `y`. -/
def insertByB {α : Type} (before : α → α → Bool) (x : α) : List α → List α
  | [] => [x]
  | y :: ys => if before x y then x :: y :: ys else y :: insertByB before x ys

/-- Deterministic insertion sort used to embed SQL ORDER BY clauses. -/
def sortByB {α : Type} (before : α → α → Bool) : List α → List α
  | [] => []
  | x :: xs => insertByB before x (sortByB before xs)

/-- Strict lexicographic order on character lists by code point, the
ordering SQLite applies to TEXT columns holding the ASCII timestamps and
severities this store writes. -/
def charListLt : List Char → List Char → Bool
  | [], [] => false
  | [], _ :: _ => true
  | _ :: _, [] => false
  | a :: as, b :: bs => Nat.blt a.toNat b.toNat || (a == b && charListLt as bs)

/-- Strict TEXT-column order on strings. -/
def strLt (a b : String) : Bool :=
  charListLt a.toList b.toList

/-- Descending comparison on nullable TEXT columns: SQLite orders NULL below
every string, so in descending order NULLs come last. -/
def optStrDescBefore (x y : Option String) : Bool :=
  match x, y with
  | none, none => true
  | none, some _ => false
  | some _, none => true
  | some a, some b => !(strLt a b)

/-- Row of the `repositories` table. -/
structure RepoRow where
  id : Nat
  repo_path : String
  repo_name : String
  first_analyzed_at : String
  last_analyzed_at : String
  total_scans : Nat
  deriving Repr, DecidableEq

/-- Row of the `scans` table; the git_patterns list is stored in its
json.dumps serialized form, taken here as an opaque string. -/
structure ScanRow where
  id : Nat
  repo_id : Nat
  scan_timestamp : String
  git_patterns_json : String
  total_commits_analyzed : Nat
  severity : Rat
  scan_duration_ms : Nat
  deriving Repr, DecidableEq

/-- Row of the `issue_flags` table (Flagged Issue entity). -/
structure IssueFlagRow where
  id : Nat
  repo_id : Nat
  issue_type : String
  first_detected_at : String
  last_detected_at : String
  occurrence_count : Nat
  severity : Rat
  notes : String
  deriving Repr, DecidableEq

/-- Row of the `fix_attempts` table. -/
structure FixAttemptRow where
  id : Nat
  repo_id : Nat
  issue_type : String
  fix_description : String
  outcome : String
  attempted_at : String
  deriving Repr, DecidableEq

/-- Row of the `repo_profiles` table. -/
structure RepoProfileRow where
  repo_id : Nat
  tech_stack : String
  team_size : Nat
  project_type : String
  metadata_json : String
  deriving Repr, DecidableEq

/-- Row of the `scan_sessions` table; columns the INSERT leaves unset are
NULL, hence the Option types. -/
structure ScanSessionRow where
  id : Nat
  repo_path : String
  repo_name : String
  started_at : Option String
  completed_at : Option String
  total_issues : Option Nat
  scan_duration_ms : Option Nat
  deriving Repr, DecidableEq

/-- Row of the `security_issues` table. -/
structure SecurityIssueRow where
  id : Nat
  session_id : Nat
  severity : String
  category : String
  summary : String
  issue_url : String
  fixed_at : Option String
  fix_notes : Option String
  deriving Repr, DecidableEq

/-- Row of the `git_patterns` table. -/
structure GitPatternRow where
  id : Nat
  session_id : Nat
  pattern_type : String
  commit_sha : String
  commit_message : String
  lines_changed : Nat
  deriving Repr, DecidableEq

/-- Row of the `behavioral_patterns` table. -/
structure BehavioralPatternRow where
  id : Nat
  session_id : Nat
  pattern_name : String
  evidence : String
  severity : String
  first_flagged : String
  last_updated : String
  occurrence_count : Nat
  deriving Repr, DecidableEq

/-- Row of the `recurring_issues` table (Recurring Issue entity). -/
structure RecurringIssueRow where
  id : Nat
  repo_path : String
  issue_signature : String
  first_seen : String
  last_seen : String
  occurrence_count : Nat
  deriving Repr, DecidableEq

/-- State of the persistent store: one list per table plus the autoincrement
counter of each table that the embedded operations insert into. -/
structure DB where
  repositories : List RepoRow
  next_repo_id : Nat
  scans : List ScanRow
  next_scan_id : Nat
  issue_flags : List IssueFlagRow
  next_flag_id : Nat
  fix_attempts : List FixAttemptRow
  repo_profiles : List RepoProfileRow
  scan_sessions : List ScanSessionRow
  next_session_id : Nat
  security_issues : List SecurityIssueRow
  next_security_id : Nat
  git_patterns : List GitPatternRow
  behavioral_patterns : List BehavioralPatternRow
  recurring_issues : List RecurringIssueRow
  next_recurring_id : Nat
  deriving Repr, DecidableEq

/-- Freshly initialized store (initialize_database creates empty tables;
SQLite autoincrement ids start at 1). -/
def emptyDB : DB :=
  { repositories := [], next_repo_id := 1
    scans := [], next_scan_id := 1
    issue_flags := [], next_flag_id := 1
    fix_attempts := []
    repo_profiles := []
    scan_sessions := [], next_session_id := 1
    security_issues := [], next_security_id := 1
    git_patterns := []
    behavioral_patterns := []
    recurring_issues := [], next_recurring_id := 1 }

/-- WHERE predicate of the issue_flags key lookup
(repo_id = ? AND issue_type = ?). -/
def flagKey (rid : Nat) (ity : String) (r : IssueFlagRow) : Bool :=
  r.repo_id == rid && r.issue_type == ity

/-- Row update applied by the UPDATE branch of flag_issue. -/
def flagUpd (sev : Rat) (notes now : String) (r : IssueFlagRow) : IssueFlagRow :=
  { r with occurrence_count := r.occurrence_count + 1,
           last_detected_at := now, severity := sev, notes := notes }

/-- Embedding of database.flag_issue: upsert-increment on the
(repo_id, issue_type) key of issue_flags. -/
def flag_issue (db : DB) (rid : Nat) (ity : String) (sev : Rat)
    (notes now : String) : DB :=
  match db.issue_flags.find? (flagKey rid ity) with
  | some _ =>
      { db with issue_flags := db.issue_flags.map
                  (fun r => if flagKey rid ity r then flagUpd sev notes now r else r) }
  | none =>
      { db with
          issue_flags := db.issue_flags ++
            [⟨db.next_flag_id, rid, ity, now, now, 1, sev, notes⟩],
          next_flag_id := db.next_flag_id + 1 }

/-- Arguments of one flag_issue call in a sequence of calls. -/
structure FlagCall where
  severity : Rat
  notes : String
  now : String
  deriving Repr, DecidableEq

/-- Sequential composition of flag_issue calls on a fixed key. -/
def flagIssueRuns (db : DB) (rid : Nat) (ity : String) : List FlagCall → DB
  | [] => db
  | c :: cs => flagIssueRuns (flag_issue db rid ity c.severity c.notes c.now) rid ity cs

/-- WHERE predicate of the recurring_issues key lookup
(repo_path = ? AND issue_signature = ?). -/
def recKey (p sig : String) (r : RecurringIssueRow) : Bool :=
  r.repo_path == p && r.issue_signature == sig

/-- Row update applied by the UPDATE branch of track_recurring_issue. -/
def recUpd (now : String) (r : RecurringIssueRow) : RecurringIssueRow :=
  { r with occurrence_count := r.occurrence_count + 1, last_seen := now }

/-- Embedding of database.track_recurring_issue: upsert-increment on the
(repo_path, issue_signature) key of recurring_issues. -/
def track_recurring_issue (db : DB) (p sig now : String) : DB :=
  match db.recurring_issues.find? (recKey p sig) with
  | some _ =>
      { db with recurring_issues := db.recurring_issues.map
                  (fun r => if recKey p sig r then recUpd now r else r) }
  | none =>
      { db with
          recurring_issues := db.recurring_issues ++
            [⟨db.next_recurring_id, p, sig, now, now, 1⟩],
          next_recurring_id := db.next_recurring_id + 1 }

/-- WHERE predicate of the repositories path lookup (repo_path = ?). -/
def repoPathKey (p : String) (r : RepoRow) : Bool :=
  r.repo_path == p

/-- Embedding of database.get_or_create_repo: returns the repo id and the
updated store. An existing row gets only its last_analyzed_at refreshed; a
missing row is inserted with total_scans = 0 and first = last = now. -/
def get_or_create_repo (db : DB) (repo_path now : String) : Nat × DB :=
  match db.repositories.find? (repoPathKey repo_path) with
  | some r =>
      (r.id,
       { db with repositories := db.repositories.map
                   (fun x => if x.id == r.id then { x with last_analyzed_at := now } else x) })
  | none =>
      (db.next_repo_id,
       { db with
           repositories := db.repositories ++
             [⟨db.next_repo_id, repo_path, pathName repo_path, now, now, 0⟩],
           next_repo_id := db.next_repo_id + 1 })

/-- Embedding of database.save_scan: inserts one scans row and increments
total_scans of the owning repository row. -/
def save_scan (db : DB) (repo_id : Nat) (git_patterns_json : String)
    (total_commits : Nat) (severity : Rat) (duration_ms : Nat) (now : String) : DB :=
  { db with
      scans := db.scans ++
        [⟨db.next_scan_id, repo_id, now, git_patterns_json, total_commits, severity, duration_ms⟩],
      next_scan_id := db.next_scan_id + 1,
      repositories := db.repositories.map
        (fun x => if x.id == repo_id then { x with total_scans := x.total_scans + 1 } else x) }

/-- Scan summary projected by the recent_scans query of get_repo_context. -/
structure ScanSummary where
  scan_timestamp : String
  total_commits_analyzed : Nat
  severity : Rat
  deriving Repr, DecidableEq

/-- Flagged-issue projection served by get_repo_context. -/
structure FlaggedIssueView where
  issue_type : String
  occurrence_count : Nat
  severity : Rat
  first_detected_at : String
  last_detected_at : String
  notes : String
  deriving Repr, DecidableEq

/-- Fix-attempt projection served by get_repo_context. -/
structure FixAttemptView where
  issue_type : String
  fix_description : String
  outcome : String
  attempted_at : String
  deriving Repr, DecidableEq

/-- Payload assembled by database.get_repo_context. -/
structure RepoContext where
  repo_info : RepoRow
  recent_scans : List ScanSummary
  flagged_issues : List FlaggedIssueView
  fix_attempts : List FixAttemptView
  profile : Option RepoProfileRow
  deriving Repr, DecidableEq

/-- Embedding of database.get_repo_context: first performs
get_or_create_repo on the path, then reads the related tables of the
resulting state. Returns the payload together with the post state; the
payload is none only in the unreachable case that the repo row vanished
between the upsert and the read. -/
def get_repo_context (db : DB) (repo_path now : String) : Option RepoContext × DB :=
  let step := get_or_create_repo db repo_path now
  let repo_id := step.1
  let db1 := step.2
  match db1.repositories.find? (fun r => r.id == repo_id) with
  | none => (none, db1)
  | some repo =>
      (some
        { repo_info := repo
          recent_scans :=
            ((sortByB (fun a b => !(strLt a.scan_timestamp b.scan_timestamp))
                (db1.scans.filter (fun s => s.repo_id == repo_id))).take 5).map
              (fun s => ⟨s.scan_timestamp, s.total_commits_analyzed, s.severity⟩)
          flagged_issues :=
            (sortByB (fun a b => b.occurrence_count ≤ a.occurrence_count)
                (db1.issue_flags.filter (fun f => f.repo_id == repo_id))).map
              (fun f => ⟨f.issue_type, f.occurrence_count, f.severity,
                         f.first_detected_at, f.last_detected_at, f.notes⟩)
          fix_attempts :=
            ((sortByB (fun a b => !(strLt a.attempted_at b.attempted_at))
                (db1.fix_attempts.filter (fun a => a.repo_id == repo_id))).take 10).map
              (fun a => ⟨a.issue_type, a.fix_description, a.outcome, a.attempted_at⟩)
          profile := db1.repo_profiles.find? (fun pr => pr.repo_id == repo_id) },
       db1)

/-- Embedding of database.create_scan_session: inserts a scan_sessions row
with started_at = now, total_issues = 0 and NULL completed_at and duration,
returning the new session id. -/
def create_scan_session (db : DB) (repo_path now : String) : Nat × DB :=
  (db.next_session_id,
   { db with
       scan_sessions := db.scan_sessions ++
         [⟨db.next_session_id, repo_path, pathName repo_path, some now, none, some 0, none⟩],
       next_session_id := db.next_session_id + 1 })

/-- Row transformer of the UPDATE in complete_scan_session. -/
def completeUpd (session_id total_issues duration_ms : Nat) (now : String)
    (s : ScanSessionRow) : ScanSessionRow :=
  if s.id == session_id then
    { s with completed_at := some now, total_issues := some total_issues,
             scan_duration_ms := some duration_ms }
  else s

/-- Embedding of database.complete_scan_session: unconditionally sets
completed_at = now, total_issues and scan_duration_ms on every row whose id
matches, whatever the prior state of the row. -/
def complete_scan_session (db : DB) (session_id total_issues duration_ms : Nat)
    (now : String) : DB :=
  { db with scan_sessions :=
      db.scan_sessions.map (completeUpd session_id total_issues duration_ms now) }

/-- Embedding of the store effect of server.close_session: marks the
session completed with zero issues and zero duration, regardless of prior
state. -/
def close_session (db : DB) (session_id : Nat) (now : String) : DB :=
  complete_scan_session db session_id 0 0 now

/-- Embedding of database.get_scan_history: sessions of the path ordered by
started_at descending (NULLs last, as SQLite sorts NULL lowest), limited. -/
def get_scan_history (db : DB) (repo_path : String) (limit : Nat) : List ScanSessionRow :=
  (sortByB (fun a b => optStrDescBefore a.started_at b.started_at)
    (db.scan_sessions.filter (fun s => s.repo_path == repo_path))).take limit

/-- Result of server.start_session, restricted to the store-dependent part
(the filesystem existence and .git checks, which precede any store access,
are outside the store model). -/
inductive StartSessionResult where
  | warning (message : String) (existing_session_id : Nat)
  | success (session_id : Nat) (repo_path : String)
      (discovery_questions : List String) (message : String)
  deriving Repr, DecidableEq

/-- Discovery questions the source embeds in the start_session payload. -/
def discoveryQuestions : List String :=
  ["On a scale of 1-10, how would you rate the overall quality of this codebase?",
   "What do you think is the biggest potential of this project?",
   "What concerns do you have about the code, if any?"]

/-- Embedding of server.start_session after the path checks: it looks at
get_scan_history(repo_path, 1) — the single most recent session only — and
returns a warning without inserting when that session is incomplete;
otherwise it creates a new session. -/
def start_session (db : DB) (repo_path now : String) : StartSessionResult × DB :=
  match (get_scan_history db repo_path 1).head? with
  | some s =>
      if s.completed_at = none then
        (StartSessionResult.warning
          "An incomplete scan session exists. Complete it first or start a new one." s.id,
         db)
      else
        let created := create_scan_session db repo_path now
        (StartSessionResult.success created.1 repo_path discoveryQuestions
          "Scan session created. Please answer the discovery questions.",
         created.2)
  | none =>
      let created := create_scan_session db repo_path now
      (StartSessionResult.success created.1 repo_path discoveryQuestions
        "Scan session created. Please answer the discovery questions.",
       created.2)

/-- Security-issue projection served by get_session_details. -/
structure SecurityIssueView where
  severity : String
  category : String
  summary : String
  issue_url : String
  fixed_at : Option String
  fix_notes : Option String
  deriving Repr, DecidableEq

/-- Git-pattern projection served by get_session_details. -/
structure GitPatternView where
  pattern_type : String
  commit_sha : String
  commit_message : String
  lines_changed : Nat
  deriving Repr, DecidableEq

/-- Behavioral-pattern projection served by get_session_details. -/
structure BehavioralPatternView where
  pattern_name : String
  evidence : String
  severity : String
  occurrence_count : Nat
  first_flagged : String
  last_updated : String
  deriving Repr, DecidableEq

/-- Payload assembled by database.get_session_details when the session row
exists; the Python function returns the empty dict otherwise, modelled as
none. -/
structure SessionDetails where
  session : ScanSessionRow
  security_issues : List SecurityIssueView
  git_patterns : List GitPatternView
  behavioral_patterns : List BehavioralPatternView
  deriving Repr, DecidableEq

/-- Embedding of database.get_session_details: a pure read that returns
none (the empty dict of the source) when no scan_sessions row has the given
id, and the full reshaped payload when one does. -/
def get_session_details (db : DB) (session_id : Nat) : Option SessionDetails :=
  match db.scan_sessions.find? (fun s => s.id == session_id) with
  | none => none
  | some s =>
      some
        { session := s
          security_issues :=
            (sortByB (fun a b => !(strLt a.severity b.severity))
                (db.security_issues.filter (fun i => i.session_id == session_id))).map
              (fun i => ⟨i.severity, i.category, i.summary, i.issue_url, i.fixed_at, i.fix_notes⟩)
          git_patterns :=
            (db.git_patterns.filter (fun g => g.session_id == session_id)).map
              (fun g => ⟨g.pattern_type, g.commit_sha, g.commit_message, g.lines_changed⟩)
          behavioral_patterns :=
            (sortByB (fun a b => b.occurrence_count ≤ a.occurrence_count)
                (db.behavioral_patterns.filter (fun bp => bp.session_id == session_id))).map
              (fun bp => ⟨bp.pattern_name, bp.evidence, bp.severity,
                          bp.occurrence_count, bp.first_flagged, bp.last_updated⟩) }

/-- Commit record of the analysis window, as supplied by the excluded git
reader: short/full hash, full (possibly multi-line) message text and the
lines-changed total of the stats summary. -/
structure MsgCommit where
  sha : String
  message : String
  lines_changed : Nat
  deriving Repr, DecidableEq

/-- Minimizing-language keyword set of analyze_message_language. -/
def minimizing_words : List String :=
  ["just", "quick", "small", "minor", "tiny", "little"]

/-- Defensive-language keyword set of analyze_message_language. -/
def defensive_words : List String :=
  ["fix", "oops", "my bad", "sorry", "mistake", "bug"]

/-- Perfectionist-language keyword set of analyze_message_language. -/
def perfectionist_words : List String :=
  ["perfect", "complete", "final", "done", "finished"]

/-- Vague-language keyword set of analyze_message_language. -/
def vague_words : List String :=
  ["update", "change", "stuff", "things", "misc"]

/-- Embedding of `any(word in msg_lower for word in words)`: the probe
string is matched case-sensitively, so the caller passes the lowercased
message exactly as the source does. -/
def matchesAny (words : List String) (msgLower : String) : Bool :=
  words.any (fun w => strContains msgLower w)

/-- Per-commit classification of analyze_message_language: the ENTIRE
message is lowercased and searched, not only its first line. -/
def langMatch (words : List String) (c : MsgCommit) : Bool :=
  matchesAny words (strLower c.message)

/-- Example entry built by analyze_message_language: the examples list (but
only it) truncates the display to the first line of the message and the
first 8 characters of the hash. -/
structure CommitInfo where
  sha : String
  message : String
  lines_changed : Nat
  deriving Repr, DecidableEq

/-- Projection of a commit to its example entry. -/
def commitInfo (c : MsgCommit) : CommitInfo :=
  ⟨strTake c.sha 8, firstLine c.message, c.lines_changed⟩

/-- Per-category block of the analyze_message_language payload. The source
passes the float percentage through round(x, 1) for JSON display; the exact
rational value is kept here. -/
structure CategoryReport where
  count : Nat
  percentage : Rat
  examples : List CommitInfo
  deriving Repr, DecidableEq

/-- Threshold-derived booleans of analyze_message_language. The source
compares against len(commits) * 0.2 etc. in float arithmetic; the
thresholds are exact decimal fractions here. -/
structure MLPatterns where
  frequently_minimizes : Bool
  frequently_defensive : Bool
  seeks_perfection : Bool
  often_vague : Bool
  deriving Repr, DecidableEq

/-- Result of the analyze_message_language tool body: the error constructor
models the payload returned by the catch-all except branch. -/
inductive MLResult where
  | error (message : String)
  | success (total_commits_analyzed : Nat)
      (minimizing defensive perfectionist vague : CategoryReport)
      (patterns : MLPatterns)
  deriving Repr, DecidableEq

/-- Category block computed over a window of given total size. -/
def categoryReport (cs : List MsgCommit) (words : List String) (total : Nat) :
    CategoryReport :=
  let sel := cs.filter (langMatch words)
  ⟨sel.length, (sel.length : Rat) / (total : Rat) * 100, (sel.take 5).map commitInfo⟩

/-- Embedding of the analyze_message_language body over its commit window.
With zero commits the source reaches `len(minimizing_commits) /
len(commits)` unguarded; the ZeroDivisionError is caught by the catch-all
except and surfaced as the error result with its str(e) text. -/
def analyze_message_language (cs : List MsgCommit) : MLResult :=
  if cs.length = 0 then
    MLResult.error "Failed to analyze language: division by zero"
  else
    MLResult.success cs.length
      (categoryReport cs minimizing_words cs.length)
      (categoryReport cs defensive_words cs.length)
      (categoryReport cs perfectionist_words cs.length)
      (categoryReport cs vague_words cs.length)
      ⟨decide (((cs.filter (langMatch minimizing_words)).length : Rat) > (cs.length : Rat) * (2/10)),
       decide (((cs.filter (langMatch defensive_words)).length : Rat) > (cs.length : Rat) * (15/100)),
       decide (((cs.filter (langMatch perfectionist_words)).length : Rat) > (cs.length : Rat) * (1/10)),
       decide (((cs.filter (langMatch vague_words)).length : Rat) > (cs.length : Rat) * (3/10))⟩

/-- Minimizing-category block of a result, when it is a success. -/
def mlMinimizing : MLResult → Option CategoryReport
  | MLResult.success _ m _ _ _ _ => some m
  | _ => none

/-- Success/error discriminator of the language-detector result. -/
def mlIsError : MLResult → Bool
  | MLResult.error _ => true
  | _ => false

/-- Commit record of the temporal detector window, as supplied by the
excluded git reader after the lookback filter: committed_datetime.hour and
the `%A` day-of-week name. -/
structure TCommit where
  hour : Nat
  day_of_week : String
  deriving Repr, DecidableEq

/-- Commits of the window committed in a given hour bucket. -/
def countHour (cs : List TCommit) (h : Nat) : Nat :=
  (cs.filter (fun c => c.hour == h)).length

/-- Commits of the window committed on a given weekday. -/
def countDay (cs : List TCommit) (d : String) : Nat :=
  (cs.filter (fun c => c.day_of_week == d)).length

/-- Result of the get_temporal_patterns tool body. The error constructor
models the no-repository branch and the catch-all except branch, neither of
which the body below can produce for a given window; emptyWindow is the
early return taken for zero commits, whose payload holds only a message. -/
inductive TPResult where
  | error (message : String)
  | emptyWindow (message : String)
  | success (period_days : Nat) (total_commits : Nat)
      (commits_by_hour : List (Nat × Nat)) (commits_by_day : List (String × Nat))
      (night_commits weekend_commits : Nat)
      (works_late_nights works_weekends consistent_schedule : Bool)
  deriving Repr, DecidableEq

/-- Embedding of the get_temporal_patterns body over the commits inside the
lookback window. -/
def get_temporal_patterns (days : Nat) (cs : List TCommit) : TPResult :=
  if cs.isEmpty then
    TPResult.emptyWindow ("No commits found in last " ++ toString days ++ " days")
  else
    let hours := (cs.map (fun c => c.hour)).eraseDups
    let dows := (cs.map (fun c => c.day_of_week)).eraseDups
    let night := ((List.range 2).map (fun i => countHour cs (22 + i))).sum +
                 ((List.range 6).map (fun i => countHour cs i)).sum
    let weekend := countDay cs "Saturday" + countDay cs "Sunday"
    TPResult.success days cs.length
      (hours.map (fun h => (h, countHour cs h)))
      (dows.map (fun d => (d, countDay cs d)))
      night weekend
      (decide ((night : Rat) > (cs.length : Rat) * (1/4)))
      (decide ((weekend : Rat) > (cs.length : Rat) * (1/4)))
      (decide (hours.length < 8))

/-- Discriminator for the full-payload success form of the temporal result. -/
def tpIsSuccessPayload : TPResult → Bool
  | TPResult.success _ _ _ _ _ _ _ _ _ => true
  | _ => false

/-- Discriminator for the error form of the temporal result. -/
def tpIsError : TPResult → Bool
  | TPResult.error _ => true
  | _ => false

/-- Sample completed session row used to exercise the session operations. -/
def sessionRowC3 : ScanSessionRow :=
  ⟨1, "/repo/alpha", "alpha", some "2024-03-01T10:00:00", some "2024-03-01T10:05:00",
   some 3, some 500⟩

/-- Store holding one already-completed session. -/
def dbC3 : DB :=
  { emptyDB with scan_sessions := [sessionRowC3], next_session_id := 2 }

/-- Older session of /repo/beta that was never completed. -/
def sessionOldIncomplete : ScanSessionRow :=
  ⟨1, "/repo/beta", "beta", some "2024-01-01T10:00:00", none, some 0, none⟩

/-- Newer session of /repo/beta that was completed. -/
def sessionNewCompleted : ScanSessionRow :=
  ⟨2, "/repo/beta", "beta", some "2024-02-01T10:00:00", some "2024-02-01T11:00:00",
   some 4, some 900⟩

/-- Store where the most recent session of the path is completed but an
older incomplete one remains. -/
def dbC5 : DB :=
  { emptyDB with scan_sessions := [sessionOldIncomplete, sessionNewCompleted],
                 next_session_id := 3 }

/-- Store holding exactly one session, which is incomplete. -/
def dbC5w : DB :=
  { emptyDB with scan_sessions := [sessionOldIncomplete], next_session_id := 2 }

/-- Sample repository row with no recorded scans. -/
def repoRowC8 : RepoRow :=
  ⟨1, "/repo/delta", "delta", "2024-01-01T00:00:00", "2024-01-01T00:00:00", 0⟩

/-- Store already holding the sample repository row. -/
def dbC8 : DB :=
  { emptyDB with repositories := [repoRowC8], next_repo_id := 2 }

/-- Commit whose first message line contains no language keyword while a
later line contains the minimizing keyword `just`. -/
def commitC9 : MsgCommit :=
  ⟨"abcdef1234", "Refactor the tokenizer\nThis was just a cleanup pass", 120⟩

/-! Generic lemmas about the list operations that embed the SQL statements. -/

theorem find?_eq_none_of_filter_nil {α : Type} (p : α → Bool) (l : List α)
    (h : l.filter p = []) : l.find? p = none := by
  induction l with
  | nil => rfl
  | cons a t ih =>
      by_cases hp : p a
      · simp [List.filter_cons, hp] at h
      · simp only [List.filter_cons, hp, if_false] at h
        simp [List.find?, hp, ih h]

theorem find?_eq_some_of_filter_singleton {α : Type} (p : α → Bool) (l : List α)
    (r : α) (h : l.filter p = [r]) : l.find? p = some r := by
  induction l with
  | nil => simp at h
  | cons a t ih =>
      by_cases hp : p a
      · simp only [List.filter_cons, hp, if_true] at h
        obtain ⟨h1, _⟩ := List.cons_eq_cons.mp h
        subst h1
        simp [List.find?, hp]
      · simp only [List.filter_cons, hp, if_false] at h
        simp [List.find?, hp, ih h]

theorem filter_map_guard {α : Type} (p : α → Bool) (f : α → α)
    (hf : ∀ a, p (f a) = p a) (l : List α) :
    (l.map (fun a => if p a then f a else a)).filter p = (l.filter p).map f := by
  induction l with
  | nil => rfl
  | cons a t ih =>
      by_cases hp : p a
      · simp [List.filter_cons, hp, hf, ih]
      · simp [List.filter_cons, hp, ih]

/-! Row-level facts about the flag_issue upsert. -/

theorem flag_issue_filter_fresh (db : DB) (rid : Nat) (ity : String)
    (sev : Rat) (notes now : String)
    (h : db.issue_flags.filter (flagKey rid ity) = []) :
    (flag_issue db rid ity sev notes now).issue_flags.filter (flagKey rid ity) =
      [⟨db.next_flag_id, rid, ity, now, now, 1, sev, notes⟩] := by
  have hfind := find?_eq_none_of_filter_nil _ _ h
  simp [flag_issue, hfind, List.filter_append, h, flagKey]

theorem flag_issue_filter_existing (db : DB) (rid : Nat) (ity : String)
    (sev : Rat) (notes now : String) (r0 : IssueFlagRow)
    (h : db.issue_flags.filter (flagKey rid ity) = [r0]) :
    (flag_issue db rid ity sev notes now).issue_flags.filter (flagKey rid ity) =
      [flagUpd sev notes now r0] := by
  have hfind := find?_eq_some_of_filter_singleton _ _ _ h
  simp [flag_issue, hfind, filter_map_guard (flagKey rid ity) (flagUpd sev notes now)
    (fun a => rfl), h]

theorem flagIssueRuns_singleton (rid : Nat) (ity : String) :
    ∀ (cs : List FlagCall) (db : DB) (r0 : IssueFlagRow),
      db.issue_flags.filter (flagKey rid ity) = [r0] →
      ∃ r, (flagIssueRuns db rid ity cs).issue_flags.filter (flagKey rid ity) = [r] ∧
        r.occurrence_count = r0.occurrence_count + cs.length ∧
        r.first_detected_at = r0.first_detected_at ∧
        r.severity = ((cs.getLast?).map FlagCall.severity).getD r0.severity ∧
        r.notes = ((cs.getLast?).map FlagCall.notes).getD r0.notes ∧
        r.last_detected_at = ((cs.getLast?).map FlagCall.now).getD r0.last_detected_at := by
  intro cs
  induction cs with
  | nil =>
      intro db r0 h
      exact ⟨r0, h, by simp, rfl, by simp, by simp, by simp⟩
  | cons c cs ih =>
      intro db r0 h
      have hstep := flag_issue_filter_existing db rid ity c.severity c.notes c.now r0 h
      obtain ⟨r, hr, hocc, hfirst, hsev, hnotes, hlast⟩ :=
        ih (flag_issue db rid ity c.severity c.notes c.now)
          (flagUpd c.severity c.notes c.now r0) hstep
      refine ⟨r, hr, ?_, ?_, ?_, ?_, ?_⟩
      · simp only [flagUpd] at hocc
        simp only [List.length_cons]
        omega
      · simpa [flagUpd] using hfirst
      · rcases cs with _ | ⟨d, ds⟩
        · simpa [flagUpd] using hsev
        · simpa [List.getLast?_cons_cons] using hsev
      · rcases cs with _ | ⟨d, ds⟩
        · simpa [flagUpd] using hnotes
        · simpa [List.getLast?_cons_cons] using hnotes
      · rcases cs with _ | ⟨d, ds⟩
        · simpa [flagUpd] using hlast
        · simpa [List.getLast?_cons_cons] using hlast

/-- C1: starting from a store with no Flagged Issue row for the
(repository, issue-type) key, any sequence of k >= 1 flag_issue calls on
that key (arbitrary severity, notes and timestamps per call) leaves exactly
one row for the key, its occurrence_count equals k, its severity, notes and
last-detected timestamp are exactly the last call's arguments (earlier
values overwritten, not appended), and its first-detected timestamp is the
first call's. -/
theorem flag_issue_upsert_sequence (db : DB) (rid : Nat) (ity : String)
    (cs : List FlagCall) (c : FlagCall)
    (hfresh : db.issue_flags.filter (flagKey rid ity) = [])
    (hlast : cs.getLast? = some c) :
    ∃ r, (flagIssueRuns db rid ity cs).issue_flags.filter (flagKey rid ity) = [r] ∧
      r.occurrence_count = cs.length ∧
      r.severity = c.severity ∧ r.notes = c.notes ∧ r.last_detected_at = c.now ∧
      ∀ c0, cs.head? = some c0 → r.first_detected_at = c0.now := by
  rcases cs with _ | ⟨c0, cs'⟩
  · simp at hlast
  · have hins := flag_issue_filter_fresh db rid ity c0.severity c0.notes c0.now hfresh
    obtain ⟨r, hr, hocc, hfirst, hsev, hnotes, hlastd⟩ :=
      flagIssueRuns_singleton rid ity cs'
        (flag_issue db rid ity c0.severity c0.notes c0.now)
        ⟨db.next_flag_id, rid, ity, c0.now, c0.now, 1, c0.severity, c0.notes⟩ hins
    rcases cs' with _ | ⟨d, ds⟩
    · have hc : c = c0 := by simpa using hlast.symm
      subst hc
      refine ⟨r, hr, by simpa using hocc, by simpa using hsev, by simpa using hnotes,
        by simpa using hlastd, ?_⟩
      intro c1 hc1
      have : c1 = c := by simpa using hc1.symm
      subst this
      simpa using hfirst
    · have hlast' : (d :: ds).getLast? = some c := by
        simpa [List.getLast?_cons_cons] using hlast
      refine ⟨r, hr, ?_, ?_, ?_, ?_, ?_⟩
      · have hocc' : r.occurrence_count = 1 + (d :: ds).length := hocc
        simp only [List.length_cons] at hocc' ⊢
        omega
      · simpa [hlast'] using hsev
      · simpa [hlast'] using hnotes
      · simpa [hlast'] using hlastd
      · intro c1 hc1
        have : c1 = c0 := by simpa using hc1.symm
        subst this
        simpa using hfirst

theorem flag_issue_upsert_sequence_witness :
    ∃ r, (flagIssueRuns emptyDB 1 "hardcoded_secret"
            [⟨1/2, "n1", "t1"⟩, ⟨3/4, "n2", "t2"⟩, ⟨1/4, "n3", "t3"⟩]).issue_flags.filter
          (flagKey 1 "hardcoded_secret") = [r] ∧
      r.occurrence_count = 3 ∧
      r.severity = (1/4 : Rat) ∧ r.notes = "n3" ∧ r.last_detected_at = "t3" ∧
      ∀ c0, ([⟨1/2, "n1", "t1"⟩, ⟨3/4, "n2", "t2"⟩, ⟨1/4, "n3", "t3"⟩] :
          List FlagCall).head? = some c0 → r.first_detected_at = c0.now :=
  flag_issue_upsert_sequence emptyDB 1 "hardcoded_secret"
    [⟨1/2, "n1", "t1"⟩, ⟨3/4, "n2", "t2"⟩, ⟨1/4, "n3", "t3"⟩] ⟨1/4, "n3", "t3"⟩
    (by rfl) (by rfl)

/-- C2: starting from a store with no Recurring Issue row for the
(repo_path, issue_signature) key, the first track_recurring_issue call
inserts exactly one row with occurrence_count 1 and first_seen = last_seen,
and a second call on the same key leaves exactly one row with
occurrence_count 2, the original first_seen and the second call's
last_seen. -/
theorem track_recurring_issue_twice (db : DB) (p sig t1 t2 : String)
    (hfresh : db.recurring_issues.filter (recKey p sig) = []) :
    (track_recurring_issue db p sig t1).recurring_issues.filter (recKey p sig) =
      [⟨db.next_recurring_id, p, sig, t1, t1, 1⟩] ∧
    (track_recurring_issue (track_recurring_issue db p sig t1) p sig t2).recurring_issues.filter
        (recKey p sig) =
      [⟨db.next_recurring_id, p, sig, t1, t2, 2⟩] := by
  have hfind := find?_eq_none_of_filter_nil _ _ hfresh
  have h1 : (track_recurring_issue db p sig t1).recurring_issues.filter (recKey p sig) =
      [⟨db.next_recurring_id, p, sig, t1, t1, 1⟩] := by
    simp [track_recurring_issue, hfind, List.filter_append, hfresh, recKey]
  refine ⟨h1, ?_⟩
  have hfind2 := find?_eq_some_of_filter_singleton _ _ _ h1
  calc (track_recurring_issue (track_recurring_issue db p sig t1) p sig t2).recurring_issues.filter
        (recKey p sig)
      = ((track_recurring_issue db p sig t1).recurring_issues.map
          (fun r => if recKey p sig r then recUpd t2 r else r)).filter (recKey p sig) := by
        rw [track_recurring_issue]
        rw [hfind2]
    _ = ((track_recurring_issue db p sig t1).recurring_issues.filter (recKey p sig)).map
          (recUpd t2) := filter_map_guard (recKey p sig) (recUpd t2) (fun a => rfl) _
    _ = [⟨db.next_recurring_id, p, sig, t1, t2, 2⟩] := by rw [h1]; rfl

theorem track_recurring_issue_twice_witness :
    (track_recurring_issue emptyDB "/repo/eps" "secret_detection:API key" "t1").recurring_issues.filter
        (recKey "/repo/eps" "secret_detection:API key") =
      [⟨emptyDB.next_recurring_id, "/repo/eps", "secret_detection:API key", "t1", "t1", 1⟩] ∧
    (track_recurring_issue
        (track_recurring_issue emptyDB "/repo/eps" "secret_detection:API key" "t1")
        "/repo/eps" "secret_detection:API key" "t2").recurring_issues.filter
        (recKey "/repo/eps" "secret_detection:API key") =
      [⟨emptyDB.next_recurring_id, "/repo/eps", "secret_detection:API key", "t1", "t2", 2⟩] :=
  track_recurring_issue_twice emptyDB "/repo/eps" "secret_detection:API key" "t1" "t2" (by rfl)

/-- C3 counterexample: on a store whose only session is already completed
(at 2024-03-01T10:05:00), a later close call on that session id changes the
completion timestamp to the new current time, so the timestamp is not
immutable once set. -/
theorem completed_at_overwritten_by_close :
    dbC3.scan_sessions.map (fun s => s.completed_at) = [some "2024-03-01T10:05:00"] ∧
    (close_session dbC3 1 "2024-03-02T09:00:00").scan_sessions.map (fun s => s.completed_at) =
      [some "2024-03-02T09:00:00"] ∧
    ("2024-03-02T09:00:00" : String) ≠ "2024-03-01T10:05:00" :=
  ⟨rfl, rfl, by decide⟩

/-- C3 (amended): a session completion timestamp, once set, is never
cleared back to null by complete or close calls — every pre-existing row
survives a complete_scan_session with its id, path and start time intact
and with isSome completed_at preserved — but a later complete or close call
on the same session id overwrites the timestamp with that call's current
time (close being exactly complete with zero counts). -/
theorem completed_at_never_cleared (db : DB) (sid tot dur : Nat) (now : String) :
    close_session db sid now = complete_scan_session db sid 0 0 now ∧
    ∀ r ∈ db.scan_sessions,
      ∃ r' ∈ (complete_scan_session db sid tot dur now).scan_sessions,
        r'.id = r.id ∧ r'.repo_path = r.repo_path ∧ r'.started_at = r.started_at ∧
        (r.completed_at.isSome = true → r'.completed_at.isSome = true) ∧
        (r.id = sid → r'.completed_at = some now) := by
  refine ⟨rfl, ?_⟩
  intro r hr
  refine ⟨completeUpd sid tot dur now r, List.mem_map_of_mem _ hr, ?_⟩
  by_cases h : r.id == sid
  · refine ⟨by simp [completeUpd, h], by simp [completeUpd, h], by simp [completeUpd, h],
      by simp [completeUpd, h], ?_⟩
    intro _
    simp [completeUpd, h]
  · refine ⟨by simp [completeUpd, h], by simp [completeUpd, h], by simp [completeUpd, h],
      by simp [completeUpd, h], ?_⟩
    intro heq
    rw [heq] at h
    simp at h

theorem completed_at_never_cleared_witness :
    ∃ r' ∈ (complete_scan_session dbC3 1 7 9 "2024-03-02T09:00:00").scan_sessions,
      r'.id = sessionRowC3.id ∧ r'.repo_path = sessionRowC3.repo_path ∧
      r'.started_at = sessionRowC3.started_at ∧
      (sessionRowC3.completed_at.isSome = true → r'.completed_at.isSome = true) ∧
      (sessionRowC3.id = 1 → r'.completed_at = some "2024-03-02T09:00:00") :=
  (completed_at_never_cleared dbC3 1 7 9 "2024-03-02T09:00:00").2 sessionRowC3 (by decide)

/-- C4: evaluating the language detector at the failing input, a window of
zero commits, shows the division by the commit count is not guarded: the
ZeroDivisionError reaches the catch-all handler and the tool returns an
error result, not the success result with zero percentages that the spec
requires. -/
theorem analyze_message_language_empty_window_errors :
    analyze_message_language [] =
      MLResult.error "Failed to analyze language: division by zero" ∧
    mlIsError (analyze_message_language []) = true :=
  ⟨rfl, rfl⟩

/-- C5 counterexample: the store dbC5 contains an incomplete session (id 1)
for /repo/beta, yet because the most recent session (id 2) is completed,
start_session creates a third session and returns success rather than the
warning with id 1 that the claim requires. -/
theorem start_session_ignores_older_incomplete :
    sessionOldIncomplete ∈ dbC5.scan_sessions ∧
    sessionOldIncomplete.completed_at = none ∧
    sessionOldIncomplete.repo_path = "/repo/beta" ∧
    (start_session dbC5 "/repo/beta" "2024-03-01T10:00:00").1 =
      StartSessionResult.success 3 "/repo/beta" discoveryQuestions
        "Scan session created. Please answer the discovery questions." ∧
    (start_session dbC5 "/repo/beta" "2024-03-01T10:00:00").2.scan_sessions.length = 3 := by
  refine ⟨by decide, rfl, rfl, by decide, by decide⟩

/-- C5 (amended): start_session inspects only the single most recent
session of the path (get_scan_history with limit 1); when that session is
incomplete it returns the warning carrying that session id and leaves the
store unchanged. An older incomplete session behind a completed one does
not trigger the warning. -/
theorem start_session_latest_incomplete_warns (db : DB) (p now : String)
    (s : ScanSessionRow)
    (hhead : (get_scan_history db p 1).head? = some s)
    (hinc : s.completed_at = none) :
    start_session db p now =
      (StartSessionResult.warning
        "An incomplete scan session exists. Complete it first or start a new one." s.id,
       db) := by
  simp only [start_session, hhead]
  simp [hinc]

theorem start_session_latest_incomplete_warns_witness :
    start_session dbC5w "/repo/beta" "2024-03-05T10:00:00" =
      (StartSessionResult.warning
        "An incomplete scan session exists. Complete it first or start a new one." 1,
       dbC5w) :=
  start_session_latest_incomplete_warns dbC5w "/repo/beta" "2024-03-05T10:00:00"
    sessionOldIncomplete (by rfl) rfl

/-- C6 counterexample: for a window of zero commits the temporal detector
returns the early result that carries only a message; it is not the
full-payload success form, so it has no total_commits field and no pattern
booleans at all (though it is also not an error). -/
theorem temporal_empty_window_payload_shape :
    get_temporal_patterns 30 [] = TPResult.emptyWindow "No commits found in last 30 days" ∧
    tpIsSuccessPayload (get_temporal_patterns 30 []) = false ∧
    tpIsError (get_temporal_patterns 30 []) = false :=
  ⟨rfl, rfl, rfl⟩

/-- C6 (amended): for every lookback length, a window of zero commits
produces a successful, non-error result that is distinct from the error
form, but its payload is only the message string; the result is not the
success form and so carries no total_commits field and no pattern
booleans. -/
theorem temporal_empty_window_message_only (days : Nat) :
    get_temporal_patterns days [] =
      TPResult.emptyWindow ("No commits found in last " ++ toString days ++ " days") ∧
    tpIsSuccessPayload (get_temporal_patterns days []) = false ∧
    tpIsError (get_temporal_patterns days []) = false := by
  have h : get_temporal_patterns days [] =
      TPResult.emptyWindow ("No commits found in last " ++ toString days ++ " days") := rfl
  exact ⟨h, by rw [h]; rfl, by rw [h]; rfl⟩

/-! Shared helper lemmas for the repository-row operations. -/

theorem map_proj_of_guard_update {α β : Type} (q : α → Bool) (f : α → α) (proj : α → β)
    (hf : ∀ a, q a = true → proj (f a) = proj a) (l : List α) :
    (l.map (fun a => if q a then f a else a)).map proj = l.map proj := by
  induction l with
  | nil => rfl
  | cons a t ih =>
      by_cases h : q a
      · simp [h, hf a h, ih]
      · simp [h, ih]

theorem mem_map_guard_update {α : Type} (q : α → Bool) (f : α → α) (l : List α)
    (x : α) (hx : x ∈ l.map (fun a => if q a then f a else a)) :
    (∃ a ∈ l, q a = true ∧ x = f a) ∨ (x ∈ l ∧ q x = false) := by
  obtain ⟨a, ha, hax⟩ := List.mem_map.mp hx
  by_cases h : q a
  · exact Or.inl ⟨a, ha, h, by rw [← hax]; simp [h]⟩
  · have : x = a := by rw [← hax]; simp [h]
    subst this
    exact Or.inr ⟨ha, by simpa using h⟩

theorem get_or_create_repo_fresh (db : DB) (p now : String)
    (h : db.repositories.find? (repoPathKey p) = none) :
    get_or_create_repo db p now =
      (db.next_repo_id,
       { db with
           repositories := db.repositories ++
             [⟨db.next_repo_id, p, pathName p, now, now, 0⟩],
           next_repo_id := db.next_repo_id + 1 }) := by
  simp [get_or_create_repo, h]

theorem get_or_create_repo_existing (db : DB) (p now : String) (r : RepoRow)
    (h : db.repositories.find? (repoPathKey p) = some r) :
    get_or_create_repo db p now =
      (r.id,
       { db with repositories := db.repositories.map
                   (fun x => if x.id == r.id then { x with last_analyzed_at := now } else x) }) := by
  simp [get_or_create_repo, h]

theorem get_repo_context_state (db : DB) (p now : String) :
    (get_repo_context db p now).2 = (get_or_create_repo db p now).2 := by
  rcases hfind : (get_or_create_repo db p now).2.repositories.find?
      (fun r => r.id == (get_or_create_repo db p now).1) with _ | repo <;>
    simp [get_repo_context, hfind]

/-- C7 counterexample: fetching the context of a path that is not yet in
the store is not a pure read — it inserts a repository row, so the store
after the fetch differs from the store before it. -/
theorem get_repo_context_mutates_store :
    (get_repo_context emptyDB "/repo/gamma" "2024-04-01T10:00:00").2 ≠ emptyDB ∧
    (get_repo_context emptyDB "/repo/gamma" "2024-04-01T10:00:00").2.repositories.length = 1 ∧
    emptyDB.repositories.length = 0 := by
  refine ⟨by decide, by decide, rfl⟩

/-- C7 (amended): fetching a repository context first runs the
get-or-create upsert on the repositories table (creating the row on first
reference, refreshing its last-seen timestamp otherwise) and its post state
is exactly that upsert's post state; every other table and counter of the
store is left untouched, and the reads themselves add nothing further. -/
theorem get_repo_context_upsert_then_pure_read (db : DB) (p now : String) :
    (get_repo_context db p now).2 = (get_or_create_repo db p now).2 ∧
    ((get_or_create_repo db p now).2.scans = db.scans ∧
     (get_or_create_repo db p now).2.issue_flags = db.issue_flags ∧
     (get_or_create_repo db p now).2.fix_attempts = db.fix_attempts ∧
     (get_or_create_repo db p now).2.repo_profiles = db.repo_profiles ∧
     (get_or_create_repo db p now).2.scan_sessions = db.scan_sessions ∧
     (get_or_create_repo db p now).2.security_issues = db.security_issues ∧
     (get_or_create_repo db p now).2.git_patterns = db.git_patterns ∧
     (get_or_create_repo db p now).2.behavioral_patterns = db.behavioral_patterns ∧
     (get_or_create_repo db p now).2.recurring_issues = db.recurring_issues) := by
  refine ⟨get_repo_context_state db p now, ?_⟩
  rcases h : db.repositories.find? (repoPathKey p) with _ | r
  · rw [get_or_create_repo_fresh db p now h]
    exact ⟨rfl, rfl, rfl, rfl, rfl, rfl, rfl, rfl, rfl⟩
  · rw [get_or_create_repo_existing db p now r h]
    exact ⟨rfl, rfl, rfl, rfl, rfl, rfl, rfl, rfl, rfl⟩

/-- C8 counterexample: a subsequent reference to an already-known path
(via get_or_create_repo) refreshes the last-seen timestamp but leaves the
cumulative scan count unchanged, so a reference does not update both. -/
theorem reference_updates_last_seen_not_scan_count :
    (get_or_create_repo dbC8 "/repo/delta" "2024-05-01T00:00:00").2.repositories.map
        (fun r => r.total_scans) = [0] ∧
    dbC8.repositories.map (fun r => r.total_scans) = [0] ∧
    (get_or_create_repo dbC8 "/repo/delta" "2024-05-01T00:00:00").2.repositories.map
        (fun r => r.last_analyzed_at) = ["2024-05-01T00:00:00"] ∧
    dbC8.repositories.map (fun r => r.last_analyzed_at) = ["2024-01-01T00:00:00"] := by
  refine ⟨by decide, rfl, by decide, rfl⟩

/-- C8 (amended): on first reference a repository row is created with scan
count 0 and first = last = now; a subsequent reference refreshes only the
last-seen timestamp (id, path, name, first-seen and scan count unchanged);
the scan count is incremented by exactly one only by save_scan, which also
appends the scan row; and no embedded operation removes a repository row. -/
theorem repo_row_lifecycle (db : DB) (p now gp : String) (rid tc dur : Nat) (sev : Rat) :
    (db.repositories.find? (repoPathKey p) = none →
      (get_or_create_repo db p now).1 = db.next_repo_id ∧
      (get_or_create_repo db p now).2.repositories =
        db.repositories ++ [⟨db.next_repo_id, p, pathName p, now, now, 0⟩]) ∧
    (∀ r, db.repositories.find? (repoPathKey p) = some r →
      (get_or_create_repo db p now).1 = r.id ∧
      (get_or_create_repo db p now).2.repositories.map (fun x => x.total_scans) =
        db.repositories.map (fun x => x.total_scans) ∧
      (get_or_create_repo db p now).2.repositories.map
          (fun x => (x.id, x.repo_path, x.repo_name, x.first_analyzed_at)) =
        db.repositories.map (fun x => (x.id, x.repo_path, x.repo_name, x.first_analyzed_at)) ∧
      ∀ x ∈ (get_or_create_repo db p now).2.repositories,
        x.id = r.id → x.last_analyzed_at = now) ∧
    ((save_scan db rid gp tc sev dur now).repositories =
      db.repositories.map
        (fun x => if x.id == rid then { x with total_scans := x.total_scans + 1 } else x) ∧
     (save_scan db rid gp tc sev dur now).scans =
      db.scans ++ [⟨db.next_scan_id, rid, now, gp, tc, sev, dur⟩]) ∧
    (db.repositories.length ≤ (get_or_create_repo db p now).2.repositories.length ∧
     (save_scan db rid gp tc sev dur now).repositories.length = db.repositories.length ∧
     (flag_issue db rid p sev "" now).repositories = db.repositories ∧
     (track_recurring_issue db p p now).repositories = db.repositories ∧
     (create_scan_session db p now).2.repositories = db.repositories ∧
     (complete_scan_session db rid tc dur now).repositories = db.repositories ∧
     (close_session db rid now).repositories = db.repositories ∧
     (start_session db p now).2.repositories = db.repositories ∧
     db.repositories.length ≤ (get_repo_context db p now).2.repositories.length) := by
  refine ⟨?_, ?_, ?_, ?_⟩
  · intro h
    rw [get_or_create_repo_fresh db p now h]
    exact ⟨rfl, rfl⟩
  · intro r h
    rw [get_or_create_repo_existing db p now r h]
    refine ⟨rfl, ?_, ?_, ?_⟩
    · exact map_proj_of_guard_update (fun x => x.id == r.id)
        (fun x => { x with last_analyzed_at := now }) (fun x => x.total_scans)
        (fun a _ => rfl) db.repositories
    · exact map_proj_of_guard_update (fun x => x.id == r.id)
        (fun x => { x with last_analyzed_at := now })
        (fun x => (x.id, x.repo_path, x.repo_name, x.first_analyzed_at))
        (fun a _ => rfl) db.repositories
    · intro x hx hid
      rcases mem_map_guard_update _ _ _ x hx with ⟨a, _, _, rfl⟩ | ⟨_, hq⟩
      · rfl
      · rw [hid] at hq
        simp at hq
  · exact ⟨rfl, rfl⟩
  · have hlen : db.repositories.length ≤ (get_or_create_repo db p now).2.repositories.length := by
      rcases h : db.repositories.find? (repoPathKey p) with _ | r
      · rw [get_or_create_repo_fresh db p now h]
        simp
      · rw [get_or_create_repo_existing db p now r h]
        simp
    have hflag : (flag_issue db rid p sev "" now).repositories = db.repositories := by
      rcases h : db.issue_flags.find? (flagKey rid p) with _ | r <;> simp [flag_issue, h]
    have htrack : (track_recurring_issue db p p now).repositories = db.repositories := by
      rcases h : db.recurring_issues.find? (recKey p p) with _ | r <;>
        simp [track_recurring_issue, h]
    have hstart : (start_session db p now).2.repositories = db.repositories := by
      rcases hh : (get_scan_history db p 1).head? with _ | s
      · simp [start_session, hh, create_scan_session]
      · by_cases hc : s.completed_at = none <;> simp [start_session, hh, hc, create_scan_session]
    refine ⟨hlen, by simp [save_scan], hflag, htrack, rfl, rfl, rfl, hstart, ?_⟩
    rw [get_repo_context_state db p now]
    exact hlen

theorem repo_row_lifecycle_witness :
    (get_or_create_repo dbC8 "/repo/delta" "2024-06-01T00:00:00").1 = repoRowC8.id ∧
    (get_or_create_repo dbC8 "/repo/delta" "2024-06-01T00:00:00").2.repositories.map
        (fun x => x.total_scans) = dbC8.repositories.map (fun x => x.total_scans) :=
  let h := (repo_row_lifecycle dbC8 "/repo/delta" "2024-06-01T00:00:00" "[]" 1 0 0
    (1/2)).2.1 repoRowC8 (by rfl)
  ⟨h.1, h.2.1⟩

/-- C9 counterexample: the commit commitC9 carries the minimizing keyword
`just` only on the second line of its message; its first line matches no
minimizing keyword, yet the detector counts the commit in the minimizing
category (count 1 in a one-commit window), so classification is not
restricted to the first line. -/
theorem language_match_counts_later_lines :
    (mlMinimizing (analyze_message_language [commitC9])).map (fun cr => cr.count) =
      some 1 ∧
    (mlMinimizing (analyze_message_language [commitC9])).map (fun cr => cr.examples) =
      some [⟨"abcdef12", "Refactor the tokenizer", 120⟩] ∧
    matchesAny minimizing_words (strLower (firstLine commitC9.message)) = false ∧
    strContains (strLower commitC9.message) "just" = true := by
  refine ⟨by decide, by decide, by decide, by decide⟩

/-- C9 (amended): the message-language detector classifies each commit by
case-insensitive substring match of the keyword sets against the commit's
ENTIRE message text, so a keyword appearing only in later lines does count
the commit; only the example display entries are truncated to the first
message line. -/
theorem language_counts_full_message (cs : List MsgCommit) (h : cs ≠ []) :
    mlMinimizing (analyze_message_language cs) =
      some (categoryReport cs minimizing_words cs.length) ∧
    ∀ c : MsgCommit, langMatch minimizing_words c = true ↔
      ∃ w ∈ minimizing_words, strContains (strLower c.message) w = true := by
  constructor
  · have hlen : ¬(cs.length = 0) := fun hh => h (List.length_eq_zero.mp hh)
    simp [analyze_message_language, hlen, mlMinimizing]
  · intro c
    simp [langMatch, matchesAny, List.any_eq_true]

theorem language_counts_full_message_witness :
    mlMinimizing (analyze_message_language [commitC9]) =
      some (categoryReport [commitC9] minimizing_words [commitC9].length) :=
  (language_counts_full_message [commitC9] (by decide)).1

/-- C10: fetching session details is total and returns the empty result
exactly when no session row has the requested id; when a row with the id
exists the result is a full record whose session component carries that id,
so presence and absence are distinguished precisely by emptiness. -/
theorem get_session_details_absent_iff_empty (db : DB) (sid : Nat) :
    (get_session_details db sid = none ↔ ∀ s ∈ db.scan_sessions, s.id ≠ sid) ∧
    (∀ s ∈ db.scan_sessions, s.id = sid →
      ∃ d, get_session_details db sid = some d ∧ d.session.id = sid) := by
  cases hfind : db.scan_sessions.find? (fun s => s.id == sid) with
  | none =>
      have hnone : ∀ s ∈ db.scan_sessions, s.id ≠ sid := by
        intro s hs
        have := List.find?_eq_none.mp hfind s hs
        simpa using this
      refine ⟨⟨fun _ => hnone, fun _ => by simp [get_session_details, hfind]⟩, ?_⟩
      intro s hs hid
      exact absurd hid (hnone s hs)
  | some s0 =>
      have hs0 : s0.id = sid := by
        have := List.find?_some hfind
        simpa using this
      refine ⟨⟨fun habs => ?_, fun hall => ?_⟩, ?_⟩
      · simp [get_session_details, hfind] at habs
      · exact absurd hs0 (hall s0 (List.mem_of_find?_eq_some hfind))
      · intro s hs hid
        cases hgd : get_session_details db sid with
        | none => simp [get_session_details, hfind] at hgd
        | some d =>
            simp [get_session_details, hfind] at hgd
            refine ⟨d, rfl, ?_⟩
            subst hgd
            exact hs0

theorem get_session_details_absent_iff_empty_witness :
    get_session_details emptyDB 7 = none :=
  ((get_session_details_absent_iff_empty emptyDB 7).1).mpr
    (by intro s hs; simp [emptyDB] at hs)

end CodexPsych
